import Mathlib

set_option autoImplicit false

namespace FuseAI

/-!
Shallow embedding of the FuseAI agent orchestrator
(`api/registry.py`, `monitoring/logger.py`, `monitoring/metrics.py`,
`api/server.py`).  File-backed JSON state is modelled explicitly; JSON
values are the inductive `Value` below.  Durations and ports are integers
as in the source (Python ints).
-/

/-- JSON-like values as stored in registry records, log details and
response bodies.  Structured values the orchestrator never inspects are
represented exactly (objects/arrays of values). -/
inductive Value where
  | null
  | str (s : String)
  | int (n : Int)
  | bool (b : Bool)
  | arr (elems : List Value)
  | obj (fields : List (String × Value))

/-- A Python dict with string keys, in insertion order. -/
abbrev Dict := List (String × Value)

/-- `d.get(k)`: first entry whose key equals `k`. -/
def dictGet (k : String) (d : Dict) : Option Value :=
  (List.find? (fun p => p.1 == k) d).map (fun p => p.2)

def dictKeys (d : Dict) : List String := d.map (fun p => p.1)

/-- Python `{**a, **u}`: keys of `a` in order (values overridden by `u`
where present), then keys of `u` not in `a`, in `u`-order. -/
def dictMerge (a u : Dict) : Dict :=
  (a.map (fun p => match dictGet p.1 u with
    | some v => (p.1, v)
    | none => p))
  ++ u.filter (fun p => !((dictKeys a).contains p.1))

/-- Python `a.get("id") == agent_id` (a string compares equal only to a
string value). -/
def isIdMatch (a : Dict) (aid : String) : Bool :=
  match dictGet "id" a with
  | some (.str s) => s == aid
  | _ => false

/-! ## Registry store (`api/registry.py`) -/

def DEFAULT_PORT_START : Nat := 8001

structure Registry where
  agents : List Dict
  next_port : Nat

/-- The backing file `runtime/agents_registry.json`: absent, unparseable
text, or parsed JSON whose two keys may each be missing
(`setdefault` supplies them on load). -/
inductive FileState where
  | missing
  | corrupt (text : String)
  | stored (agents : Option (List Dict)) (next_port : Option Nat)

/-- `load_registry`: missing or unparseable file yields the empty default;
otherwise `setdefault` fills absent keys. -/
def loadRegistry : FileState → Registry
  | .missing => ⟨[], DEFAULT_PORT_START⟩
  | .corrupt _ => ⟨[], DEFAULT_PORT_START⟩
  | .stored ag np => ⟨ag.getD [], np.getD DEFAULT_PORT_START⟩

/-- `save_registry` writes the full document (both keys present). -/
def storedOf (r : Registry) : FileState :=
  .stored (some r.agents) (some r.next_port)

/-- `get_agent`: first registry record whose `id` equals `agent_id`. -/
def getAgentReg (aid : String) (f : FileState) : Option Dict :=
  List.find? (fun a => isIdMatch a aid) (loadRegistry f).agents

/-- Loop body of `update_agent`: replace the first record whose id
matches with the merged record; `none` when no record matches. -/
def updateAgentsList (aid : String) (u : Dict) : List Dict → Option (List Dict)
  | [] => none
  | a :: rest =>
    if isIdMatch a aid then some (dictMerge a u :: rest)
    else (updateAgentsList aid u rest).map (fun l => a :: l)

/-- `update_agent`: the `Bool` is the return value; the `Option Registry`
is the write effect on the backing file (`none` = `save_registry` never
called). -/
def updateAgentW (aid : String) (u : Dict) (f : FileState) : Bool × Option Registry :=
  let data := loadRegistry f
  match updateAgentsList aid u data.agents with
  | some ag => (true, some ⟨ag, data.next_port⟩)
  | none => (false, none)

/-- `remove_agent`: drop every record whose id matches; write and return
`True` only if the list shrank. -/
def removeAgentW (aid : String) (f : FileState) : Bool × Option Registry :=
  let data := loadRegistry f
  let ag := data.agents.filter (fun a => !(isIdMatch a aid))
  if ag.length < data.agents.length then (true, some ⟨ag, data.next_port⟩)
  else (false, none)

/-- `reserve_port`: return the current counter, persist counter + 1. -/
def reservePortF (f : FileState) : Nat × FileState :=
  let data := loadRegistry f
  (data.next_port, storedOf ⟨data.agents, data.next_port + 1⟩)

/-- Value returned by the `(n+1)`-th successive `reserve_port` call
starting from backing file `f` (each call reloads the file the previous
call saved). -/
def reserveSeq (f : FileState) : Nat → Nat
  | 0 => (reservePortF f).1
  | n + 1 => reserveSeq (reservePortF f).2 n

/-! ## Log store (`monitoring/logger.py`) -/

structure LogEntry where
  id : Nat
  level : String
  timestamp : String
  message : String
  details : List (String × Value)

/-- One `log_info` / `log_error` invocation (its level, timestamp,
message and details). -/
structure LogOp where
  level : String
  timestamp : String
  message : String
  details : List (String × Value)

/-- `_save_logs`: keep the last 500 entries (`entries[-500:]`). -/
def saveLogs (entries : List LogEntry) : List LogEntry :=
  if entries.length > 500 then entries.drop (entries.length - 500) else entries

/-- The id `log_info`/`log_error` assigns: `len(entries) + 1`. -/
def nextLogId (es : List LogEntry) : Nat := es.length + 1

/-- Body shared by `log_error` and `log_info`: append an entry with id
`len(entries) + 1`, then save with the 500 cap. -/
def logAppend (es : List LogEntry) (op : LogOp) : List LogEntry :=
  saveLogs (es ++ [⟨nextLogId es, op.level, op.timestamp, op.message, op.details⟩])

/-- Stored log after a sequence of appends starting from an empty file. -/
def logsAfterOps (ops : List LogOp) : List LogEntry :=
  ops.foldl logAppend []

/-- Run the appends keeping both the stored log and the full arrival
sequence of created entries (the latter is the observation trace used to
state eviction claims). -/
def runLogAux : List LogOp → List LogEntry × List LogEntry → List LogEntry × List LogEntry
  | [], s => s
  | op :: ops, (store, arr) =>
    runLogAux ops
      (logAppend store op,
       arr ++ [⟨nextLogId store, op.level, op.timestamp, op.message, op.details⟩])

def runLog (ops : List LogOp) : List LogEntry × List LogEntry :=
  runLogAux ops ([], [])

/-- The claimed invariant: the id the next append assigns is strictly
greater than the id of every entry already stored. -/
def logIdMonotone (es : List LogEntry) : Prop :=
  ∀ e ∈ es, e.id < nextLogId es

/-! ## Metrics recorder (`monitoring/metrics.py`) -/

structure CallRec where
  timestamp : String
  status : Int
  duration_ms : Option Int
  success : Bool
  path : String

/-- `record_call`: append one call record (success iff `200 <= status <
400`, path defaulted to `/`), capped at the last 1000 calls. -/
def recordCall (calls : List CallRec) (now : String) (status : Int)
    (durationMs : Int) (path : String) : List CallRec :=
  let calls := calls ++
    [⟨now, status, some durationMs, decide (200 ≤ status ∧ status < 400),
      if path == "" then "/" else path⟩]
  if calls.length > 1000 then calls.drop (calls.length - 1000) else calls

structure MetricsSummary where
  totalRequests : Nat
  successful : Nat
  failed : Nat
  successRate : ℚ
  avgResponseTime : Int
  minResponseTime : Int
  maxResponseTime : Int
  p95ResponseTime : Int
  requestsOverTime : List (String × Nat)
  callsWindow : List CallRec

/-- `by_day[ts] = by_day.get(ts, 0) + 1` on an insertion-ordered map. -/
def bumpDay (m : List (String × Nat)) (d : String) : List (String × Nat) :=
  if (m.map (fun p => p.1)).contains d then
    m.map (fun p => if p.1 == d then (p.1, p.2 + 1) else p)
  else m ++ [(d, 1)]

/-- `get_metrics` aggregation over the loaded call list.  Real-number
steps are modelled exactly: `int(sum/len)` is integer division truncated
toward zero, and `int(len * 0.95)` equals `19 * len / 20` in natural
division (the double-precision product of a natural below `2 ^ 49` with
`0.95` truncates to the same integer). -/
def getMetrics (calls : List CallRec) : MetricsSummary :=
  let total := calls.length
  let successful := (calls.filter (fun c => c.success)).length
  let failed := total - successful
  let successRate : ℚ := if total = 0 then 0 else (successful : ℚ) / (total : ℚ)
  let durations : List Int := calls.filterMap (fun c => c.duration_ms)
  let avgMs : Int :=
    if durations.length = 0 then 0
    else Int.tdiv durations.sum (durations.length : Int)
  let minMs : Int := (durations.min?).getD 0
  let maxMs : Int := (durations.max?).getD 0
  let sorted := durations.mergeSort (fun a b => a ≤ b)
  let p95Idx : Int := ((19 * durations.length / 20 : Nat) : Int) - 1
  let p95Ms : Int :=
    if 0 ≤ p95Idx ∧ sorted ≠ [] then sorted.getD p95Idx.toNat 0 else 0
  let byDay := calls.foldl
    (fun m c =>
      let ts := c.timestamp.take 10
      if ts == "" then m else bumpDay m ts) []
  let daysOrder := ((byDay.map (fun p => p.1)).mergeSort (fun a b => b ≤ a)).take 7
  let requestsOverTime :=
    daysOrder.reverse.map (fun d => (d, ((byDay.lookup d).getD 0)))
  { totalRequests := total
    successful := successful
    failed := failed
    successRate := successRate
    avgResponseTime := avgMs
    minResponseTime := minMs
    maxResponseTime := maxMs
    p95ResponseTime := p95Ms
    requestsOverTime := requestsOverTime
    callsWindow := calls.drop (calls.length - 100) }

/-- Modelled from the spec: p95 as the element of the sorted duration
list at index `ceil(0.95 * n) - 1` (0 when the list is empty);
`ceil(0.95 * n) = (19 * n + 19) / 20` in natural division. -/
def p95CeilSpec (ds : List Int) : Int :=
  if ds = [] then 0
  else (ds.mergeSort (fun a b => a ≤ b)).getD ((19 * ds.length + 19) / 20 - 1) 0

/-- The index rule the code actually implements: the element of the
sorted list at index `int(0.95 * n) - 1` when that index is nonnegative,
otherwise 0. -/
def p95FloorSpec (ds : List Int) : Int :=
  if 1 ≤ 19 * ds.length / 20 then
    (ds.mergeSort (fun a b => a ≤ b)).getD (19 * ds.length / 20 - 1) 0
  else 0

/-! ## Server (`api/server.py`) -/

/-- Python `str()` of a value as used in f-strings and error messages
(dict/list rendering abstracted to a JSON-like form). -/
def vRepr : Value → String
  | .null => "None"
  | .str s => "\x27" ++ s ++ "\x27"
  | .int n => toString n
  | .bool b => if b then "True" else "False"
  | .arr xs => "[" ++ String.intercalate ", " (xs.attach.map (fun x => vRepr x.1)) ++ "]"
  | .obj flds => "\x7b" ++
      String.intercalate ", "
        (flds.attach.map (fun p => "\x27" ++ p.1.1 ++ "\x27: " ++ vRepr p.1.2)) ++ "\x7d"
decreasing_by
  · have h := List.sizeOf_lt_of_mem x.2
    have hs : sizeOf (Value.arr xs) = 1 + sizeOf xs := by simp
    omega
  · rcases p with ⟨⟨k, v⟩, hp⟩
    show sizeOf v < sizeOf (Value.obj flds)
    have h := List.sizeOf_lt_of_mem hp
    have hs : sizeOf (Value.obj flds) = 1 + sizeOf flds := by simp
    have hkv : sizeOf (k, v) = 1 + sizeOf k + sizeOf v := by simp
    omega

/-- `str(v)` for a value interpolated into an f-string: a string renders
as itself, everything else by its representation. -/
def vStr (v : Value) : String :=
  match v with
  | .str s => s
  | _ => vRepr v

/-- Python truthiness of an optional value (used for `if port`). -/
def vTruthy : Option Value → Bool
  | none => false
  | some .null => false
  | some (.str s) => !(s == "")
  | some (.int n) => !(n == 0)
  | some (.bool b) => b
  | some (.arr xs) => !xs.isEmpty
  | some (.obj flds) => !flds.isEmpty

/-- `_agent_payload`: shape an agent record for the frontend. -/
def agentPayload (agent : Dict) : Dict :=
  let port := dictGet "port" agent
  let baseUrl : Value :=
    if vTruthy port then .str ("http://localhost:" ++ vStr (port.getD .null))
    else .null
  [("id", (dictGet "id" agent).getD .null),
   ("name", (dictGet "name" agent).getD .null),
   ("description", (dictGet "description" agent).getD .null),
   ("prompt", (dictGet "prompt" agent).getD .null),
   ("status", (dictGet "status" agent).getD (.str "created")),
   ("triggerType", .str "on_demand"),
   ("services", (dictGet "services" agent).getD (.arr [])),
   ("endpoints", (dictGet "endpoints" agent).getD (.arr [])),
   ("task_description", (dictGet "task_description" agent).getD .null),
   ("port", port.getD .null),
   ("baseUrl", baseUrl),
   ("apiUrl", baseUrl),
   ("created_at", (dictGet "created_at" agent).getD .null)]

/-- Entry of `_agent_processes`: the live process handle (whether
`poll()` still reports it alive) and its port. -/
structure ProcEntry where
  alive : Bool
  port : Option Nat

/-- Per-agent metrics file content (`runtime/metrics/{agent_id}.json`). -/
structure MetricsData where
  calls : List CallRec
  created_at : String

/-- Observable state the server routes read and write: the process
table, the ready set, the registry file, the per-agent metrics and log
files, and the set of on-disk agent directories (keyed by agent id). -/
structure SrvState where
  procs : List (String × ProcEntry)
  ready : List String
  regFile : FileState
  metricsFiles : List (String × MetricsData)
  logFiles : List (String × List LogEntry)
  agentDirs : List String

/-- A raised `HTTPException` (handled by the framework) or an uncaught
Python exception escaping the route handler. -/
inductive Abort where
  | httpExc (code : Nat) (detail : String)
  | uncaught (excName : String)

/-- The structured `{status, duration, body}` result of `api_test_agent`. -/
structure TestResult where
  status : Nat
  duration : Nat
  body : Value

structure RunAgentRequest where
  method : String
  path : String
  query : List (String × String)
  body : Option Dict

/-- What the forwarded HTTP request did: a response (any status), an
`HTTPError` (carrying its parsed-or-not body and its `str(e)` text), or
any other exception (transport failure) with its `str(e)` text. -/
inductive UpstreamOutcome where
  | ok (status : Nat) (elapsedMs : Nat) (rawBody : String) (parsed : Option Value)
  | httpErr (code : Nat) (elapsedMs : Nat) (parsed : Option Value) (excText : String)
  | exc (msg : String) (elapsedMs : Nat)

/-- Write-or-create of a per-agent file in an association list. -/
def setAssoc {α : Type} (k : String) (v : α) (m : List (String × α)) : List (String × α) :=
  if (m.map (fun p => p.1)).contains k then
    m.map (fun p => if p.1 == k then (k, v) else p)
  else m ++ [(k, v)]

/-- `_load_metrics`: missing file yields an empty call list stamped now. -/
def loadMetricsS (aid now : String) (st : SrvState) : MetricsData :=
  match st.metricsFiles.lookup aid with
  | some d => d
  | none => ⟨[], now⟩

/-- `record_call` acting on the server state. -/
def recordCallS (aid now : String) (status durationMs : Int) (path : String)
    (st : SrvState) : SrvState :=
  let d := loadMetricsS aid now st
  let mf := setAssoc aid (⟨recordCall d.calls now status durationMs path, d.created_at⟩ : MetricsData) st.metricsFiles
  { st with metricsFiles := mf }

/-- `log_info` / `log_error` acting on the server state. -/
def logAppendS (aid : String) (op : LogOp) (st : SrvState) : SrvState :=
  let es := (st.logFiles.lookup aid).getD []
  { st with logFiles := setAssoc aid (logAppend es op) st.logFiles }

/-- Apply the write effect of a registry operation to the backing file. -/
def applyWrite (w : Option Registry) (f : FileState) : FileState :=
  match w with
  | some r => storedOf r
  | none => f

/-- `api_test_agent`, the request proxy: guards (agent tracked live,
port known), then forward and classify.  The upstream outcome and the
clock are inputs; the returned value is the structured result or the
exception the handler raises. -/
def apiTestAgent (aid : String) (req : RunAgentRequest) (out : UpstreamOutcome)
    (now : String) (st : SrvState) : Except Abort TestResult × SrvState :=
  match st.procs.lookup aid with
  | none => (.error (.httpExc 400 "Agent is not running. Deploy it first."), st)
  | some info =>
    match info.port with
    | none => (.error (.httpExc 400 "Agent port unknown"), st)
    | some port =>
      if port = 0 then (.error (.httpExc 400 "Agent port unknown"), st)
      else
        match out with
        | .ok status elapsed raw parsed =>
          let outBody := parsed.getD (.obj [("raw", .str raw)])
          let st := recordCallS aid now (status : Int) (elapsed : Int) req.path st
          let st := logAppendS aid
            ⟨"info", now, "Request " ++ req.method ++ " " ++ req.path ++ " completed",
             [("status", .int status), ("duration_ms", .int elapsed)]⟩ st
          (.ok ⟨status, elapsed, outBody⟩, st)
        | .httpErr code elapsed parsed excText =>
          let outBody := parsed.getD (.obj [("error", .str excText)])
          let st := recordCallS aid now (code : Int) (elapsed : Int) req.path st
          match outBody with
          | .obj flds =>
            let fallback := (dictGet "error" flds).getD (.str (vRepr outBody))
            let detail := (dictGet "detail" flds).getD fallback
            let errMsg :=
              match detail with
              | .str s => "Request failed: HTTP " ++ toString code ++ " — " ++ s
              | _ => "Request failed: HTTP " ++ toString code ++ " — " ++ vStr fallback
            let st := logAppendS aid
              ⟨"error", now, errMsg,
               [("status", .int code), ("path", .str req.path), ("body", outBody)]⟩ st
            (.ok ⟨code, elapsed, outBody⟩, st)
          | _ =>
            -- `out_body.get(...)` on a non-dict raises inside the
            -- `except HTTPError` handler and is not caught again.
            (.error (.uncaught "AttributeError"), st)
        | .exc msg elapsed =>
          let st := recordCallS aid now 0 (elapsed : Int) req.path st
          let st := logAppendS aid
            ⟨"error", now, "Request failed: " ++ msg,
             [("path", .str req.path), ("error", .str msg)]⟩ st
          (.ok ⟨0, elapsed, .obj [("error", .str msg)]⟩, st)

/-- `api_stop_agent`: with no live process, 404 unless the registry
knows the agent, else mark `stopped`; with a live process, terminate
(graceful wait then kill, modelled as dropping the handle), clear
readiness, mark `stopped`. -/
def apiStopAgent (aid : String) (st : SrvState) : Except Abort Dict × SrvState :=
  match st.procs.lookup aid with
  | none =>
    match getAgentReg aid st.regFile with
    | none => (.error (.httpExc 404 "Agent not found"), st)
    | some agent =>
      let w := (updateAgentW aid [("status", .str "stopped")] st.regFile).2
      let st := { st with regFile := applyWrite w st.regFile }
      (.ok (agentPayload (dictMerge agent [("status", .str "stopped")])), st)
  | some _ =>
    let st := { st with
      procs := st.procs.filter (fun p => !(p.1 == aid)),
      ready := st.ready.filter (fun x => !(x == aid)) }
    let w := (updateAgentW aid [("status", .str "stopped")] st.regFile).2
    let st := { st with regFile := applyWrite w st.regFile }
    let agent := (getAgentReg aid st.regFile).getD []
    (.ok (agentPayload (dictMerge agent [("status", .str "stopped")])), st)

/-- First step of `api_delete_agent`: if a process handle is tracked,
terminate it (graceful wait then kill) and pop it from the table. -/
def popProcIfLive (aid : String) (st : SrvState) : SrvState :=
  if (st.procs.lookup aid).isSome then
    { st with procs := st.procs.filter (fun p => !(p.1 == aid)) }
  else st

/-- `api_delete_agent`: terminate and drop any live process, remove the
registry record (404 if none), remove the agent directory
(`ignore_errors`), the ready membership, and the metrics and log files. -/
def apiDeleteAgent (aid : String) (st : SrvState) :
    Except Abort (List (String × String)) × SrvState :=
  let st := popProcIfLive aid st
  let r := removeAgentW aid st.regFile
  if r.1 then
    let st := { st with
      regFile := applyWrite r.2 st.regFile,
      agentDirs := st.agentDirs.filter (fun d => !(d == aid)),
      ready := st.ready.filter (fun x => !(x == aid)),
      metricsFiles := st.metricsFiles.filter (fun p => !(p.1 == aid)),
      logFiles := st.logFiles.filter (fun p => !(p.1 == aid)) }
    (.ok [("message", "Agent removed")], st)
  else (.error (.httpExc 404 "Agent not found"), st)

/-- The `status` field of the registry record `get_agent` returns. -/
def statusOfReg (aid : String) (f : FileState) : Option Value :=
  (getAgentReg aid f).bind (fun a => dictGet "status" a)

/-- Some registry record has `id` equal to `aid`. -/
abbrev hasAgentReg (aid : String) (f : FileState) : Prop :=
  ∃ a ∈ (loadRegistry f).agents, isIdMatch a aid = true

/-! ## Concrete inputs used in counterexamples and witnesses -/

/-- The ids stored in a log. -/
def logIds (es : List LogEntry) : List Nat := es.map (fun e => e.id)

/-- Five recorded calls with durations 10..50 ms (the spec's worked
example). -/
def calls5 : List CallRec :=
  [⟨"2025-01-01T00:00:00Z", 200, some 10, true, "/execute"⟩,
   ⟨"2025-01-01T00:00:01Z", 200, some 20, true, "/execute"⟩,
   ⟨"2025-01-01T00:00:02Z", 200, some 30, true, "/execute"⟩,
   ⟨"2025-01-01T00:00:03Z", 200, some 40, true, "/execute"⟩,
   ⟨"2025-01-01T00:00:04Z", 200, some 50, true, "/execute"⟩]

/-- A fixed log append operation. -/
def opM : LogOp := ⟨"info", "2025-01-01 00:00:00", "Request POST /execute completed", []⟩

/-- A registry record for agent `"a"`. -/
def recA : Dict :=
  [("id", .str "a"), ("name", .str "Agent A"), ("status", .str "running"),
   ("port", .int 8003)]

/-- A registry file containing exactly `recA`. -/
def regA : FileState := .stored (some [recA]) (some 8004)

/-- A proxy test request. -/
def req0 : RunAgentRequest := ⟨"POST", "/execute", [], none⟩

/-- Server state with agent `"a"` tracked live on port 8003. -/
def stLive : SrvState := ⟨[("a", ⟨true, some 8003⟩)], ["a"], regA, [], [], ["a"]⟩

/-- Server state where no process is tracked for any agent. -/
def stNoProc : SrvState := ⟨[], [], regA, [], [], ["a"]⟩

/-! ## Log store lemmas and claims C2, C9 -/

lemma saveLogs_eq_drop (es : List LogEntry) :
    saveLogs es = es.drop (es.length - 500) := by
  unfold saveLogs
  split
  · rfl
  · next h =>
    have h0 : es.length - 500 = 0 := by omega
    simp [h0]

lemma logAppend_ids (es : List LogEntry) (op : LogOp) (h : es.length + 1 ≤ 500) :
    logIds (logAppend es op) = logIds es ++ [es.length + 1] := by
  have hn : ¬ (es ++ [(⟨nextLogId es, op.level, op.timestamp, op.message, op.details⟩ : LogEntry)]).length > 500 := by
    simp only [List.length_append, List.length_cons, List.length_nil]
    omega
  unfold logAppend saveLogs
  rw [if_neg hn]
  simp [logIds, nextLogId]

lemma logsAfterOps_ids (ops : List LogOp) (h : ops.length ≤ 500) :
    logIds (logsAfterOps ops) = (List.range ops.length).map (fun i => i + 1) := by
  induction ops using List.reverseRecOn with
  | nil => rfl
  | append_singleton ops op ih =>
    have hlen0 : (ops ++ [op]).length = ops.length + 1 := by
      simp only [List.length_append, List.length_cons, List.length_nil]
    have h' : ops.length ≤ 500 := by omega
    have hlen : (logsAfterOps ops).length = ops.length := by
      have hc := congrArg List.length (ih h')
      simpa [logIds] using hc
    have happ : logsAfterOps (ops ++ [op]) = logAppend (logsAfterOps ops) op :=
      List.foldl_concat logAppend [] op ops
    have hcap : (logsAfterOps ops).length + 1 ≤ 500 := by omega
    rw [happ, logAppend_ids _ _ hcap, ih h', hlen, hlen0]
    simp [List.range_succ]

lemma logsAfterOps_length (ops : List LogOp) (h : ops.length ≤ 500) :
    (logsAfterOps ops).length = ops.length := by
  have hc := congrArg List.length (logsAfterOps_ids ops h)
  simpa [logIds] using hc

lemma range_map_shift (n : Nat) :
    List.drop 1 ((List.range (n + 1)).map (fun i => i + 1)) = (List.range n).map (fun i => i + 2) := by
  rw [List.range_succ_eq_map, List.map_cons, List.map_map]
  rw [show ((fun i => i + 1) ∘ Nat.succ) = (fun i : Nat => i + 2) from funext (fun i => rfl)]
  rfl

lemma ids_after_501 :
    logIds (logsAfterOps (List.replicate 501 opM)) = (List.range 500).map (fun i => i + 2) := by
  have h500 : (List.replicate 500 opM).length ≤ 500 := by
    have hr := List.length_replicate 500 opM
    omega
  have hids := logsAfterOps_ids (List.replicate 500 opM) h500
  rw [List.length_replicate] at hids
  have hlen : (logsAfterOps (List.replicate 500 opM)).length = 500 := by
    have hr := logsAfterOps_length (List.replicate 500 opM) h500
    rw [List.length_replicate] at hr
    exact hr
  have hsplit : List.replicate 501 opM = List.replicate 500 opM ++ [opM] := by
    have h5 : (501 : Nat) = 500 + 1 := rfl
    rw [h5]
    exact List.replicate_succ' 500 opM
  rw [hsplit]
  have happ : logsAfterOps (List.replicate 500 opM ++ [opM])
      = logAppend (logsAfterOps (List.replicate 500 opM)) opM :=
    List.foldl_concat logAppend [] opM (List.replicate 500 opM)
  rw [happ]
  set es := logsAfterOps (List.replicate 500 opM) with hes
  have hid : nextLogId es = 501 := by rw [nextLogId, hlen]
  rw [logAppend, saveLogs_eq_drop]
  have hlen2 : (es ++ [(⟨nextLogId es, opM.level, opM.timestamp, opM.message, opM.details⟩ : LogEntry)]).length - 500 = 1 := by
    simp only [List.length_append, List.length_cons, List.length_nil, hlen]
  rw [hlen2]
  simp only [logIds] at hids ⊢
  rw [List.map_drop, List.map_append, List.map_cons, List.map_nil, hids]
  rw [show LogEntry.id (⟨nextLogId es, opM.level, opM.timestamp, opM.message, opM.details⟩ : LogEntry) = nextLogId es from rfl]
  rw [hid]
  have hstep : (List.range 500).map (fun i => i + 1) ++ [501]
      = (List.range (500 + 1)).map (fun i => i + 1) := by
    have h2 : List.range (500 + 1) = List.range 500 ++ [500] := List.range_succ 500
    rw [h2, List.map_append]
    rfl
  rw [hstep]
  exact range_map_shift 500

/-- C2 counterexample: after 501 appends the id the next append would
assign (`len + 1 = 501`) already occurs in the stored log, so the
assigned id is not strictly greater than every stored id. -/
theorem C2_counterexample : ¬ logIdMonotone (logsAfterOps (List.replicate 501 opM)) := by
  intro h
  have hids := ids_after_501
  have hlen : (logsAfterOps (List.replicate 501 opM)).length = 500 := by
    have hc := congrArg List.length hids
    simp only [logIds, List.length_map, List.length_range] at hc
    exact hc
  have hmem : (501 : Nat) ∈ logIds (logsAfterOps (List.replicate 501 opM)) := by
    rw [hids]
    exact List.mem_map.mpr ⟨499, List.mem_range.mpr (by norm_num), by norm_num⟩
  rw [logIds] at hmem
  obtain ⟨e, he, hid⟩ := List.mem_map.mp hmem
  have hlt := h e he
  rw [nextLogId, hlen] at hlt
  omega

/-- C2 (amended): log entry ids are strictly monotonic as long as the
500-entry cap has not yet caused eviction — for any sequence of at most
500 appends from an empty log, the id the next append assigns is
strictly greater than every stored id.  Once eviction occurs the
assigned id (501) collides with a stored id. -/
theorem C2_log_ids_monotonic_below_cap (ops : List LogOp) (h : ops.length ≤ 500) :
    logIdMonotone (logsAfterOps ops) := by
  intro e he
  have hids := logsAfterOps_ids ops h
  have hlen := logsAfterOps_length ops h
  have hmem : e.id ∈ logIds (logsAfterOps ops) := by
    rw [logIds]
    exact List.mem_map.mpr ⟨e, he, rfl⟩
  rw [hids] at hmem
  obtain ⟨i, hi, hieq⟩ := List.mem_map.mp hmem
  have hilt : i < ops.length := List.mem_range.mp hi
  rw [nextLogId, hlen]
  omega

/-- Witness for C2 amended at two appends. -/
theorem C2_witness :
    (List.replicate 2 opM).length ≤ 500 ∧ logIdMonotone (logsAfterOps (List.replicate 2 opM)) :=
  ⟨by decide, C2_log_ids_monotonic_below_cap (List.replicate 2 opM) (by decide)⟩

lemma runLogAux_arr_length (ops : List LogOp) :
    ∀ s : List LogEntry × List LogEntry, ((runLogAux ops s).2).length = s.2.length + ops.length := by
  induction ops with
  | nil =>
    intro s
    simp [runLogAux]
  | cons op ops ih =>
    intro s
    obtain ⟨store, arr⟩ := s
    rw [runLogAux, ih]
    simp only [List.length_append, List.length_cons, List.length_nil]
    omega

lemma runLogAux_store (ops : List LogOp) :
    ∀ store arr : List LogEntry, store = arr.drop (arr.length - 500) →
      (runLogAux ops (store, arr)).1
        = (runLogAux ops (store, arr)).2.drop ((runLogAux ops (store, arr)).2.length - 500) := by
  induction ops with
  | nil =>
    intro store arr h
    simpa [runLogAux] using h
  | cons op ops ih =>
    intro store arr h
    have hlen : store.length = arr.length - (arr.length - 500) := by
      rw [h, List.length_drop]
    have h1 : ∀ e : LogEntry, store ++ [e] = (arr ++ [e]).drop (arr.length - 500) := by
      intro e
      conv_lhs => rw [h]
      rw [List.drop_append_of_le_length (by omega)]
    have h' : logAppend store op
        = (arr ++ [(⟨nextLogId store, op.level, op.timestamp, op.message, op.details⟩ : LogEntry)]).drop
            ((arr ++ [(⟨nextLogId store, op.level, op.timestamp, op.message, op.details⟩ : LogEntry)]).length - 500) := by
      calc logAppend store op
          = (store ++ [(⟨nextLogId store, op.level, op.timestamp, op.message, op.details⟩ : LogEntry)]).drop (store.length + 1 - 500) := by
            rw [logAppend, saveLogs_eq_drop]
            have hl : (store ++ [(⟨nextLogId store, op.level, op.timestamp, op.message, op.details⟩ : LogEntry)]).length = store.length + 1 := by
              rw [List.length_append]
              rfl
            rw [hl]
        _ = ((arr ++ [(⟨nextLogId store, op.level, op.timestamp, op.message, op.details⟩ : LogEntry)]).drop (arr.length - 500)).drop (store.length + 1 - 500) := by
            rw [h1]
        _ = (arr ++ [(⟨nextLogId store, op.level, op.timestamp, op.message, op.details⟩ : LogEntry)]).drop ((arr.length - 500) + (store.length + 1 - 500)) := by
            rw [List.drop_drop]
        _ = (arr ++ [(⟨nextLogId store, op.level, op.timestamp, op.message, op.details⟩ : LogEntry)]).drop
              ((arr ++ [(⟨nextLogId store, op.level, op.timestamp, op.message, op.details⟩ : LogEntry)]).length - 500) := by
            have hl2 : (arr ++ [(⟨nextLogId store, op.level, op.timestamp, op.message, op.details⟩ : LogEntry)]).length = arr.length + 1 := by
              rw [List.length_append]
              rfl
            have hidx : (arr.length - 500) + (store.length + 1 - 500) = arr.length + 1 - 500 := by
              omega
            rw [hl2, hidx]
    rw [runLogAux]
    exact ih _ _ h'

/-- C9: for every sequence of 600 log appends from an empty log, the
stored log is exactly the most recent 500 created entries in arrival
order — the oldest 100 are evicted. -/
theorem C9_log_cap_keeps_last_500 (ops : List LogOp) (h : ops.length = 600) :
    (runLog ops).1 = (runLog ops).2.drop 100 ∧ (runLog ops).2.length = 600 := by
  have hlen : (runLog ops).2.length = 600 := by
    rw [runLog, runLogAux_arr_length]
    simp only [List.length_nil]
    omega
  have hstore := runLogAux_store ops [] [] rfl
  refine ⟨?_, hlen⟩
  rw [runLog] at hlen ⊢
  rw [hstore, hlen]

/-- Witness for C9 at 600 identical appends. -/
theorem C9_witness :
    (List.replicate 600 opM).length = 600
    ∧ (runLog (List.replicate 600 opM)).1 = (runLog (List.replicate 600 opM)).2.drop 100 :=
  ⟨List.length_replicate 600 opM,
   (C9_log_cap_keeps_last_500 (List.replicate 600 opM) (List.length_replicate 600 opM)).1⟩

/-! ## Registry claims C3, C6 -/

lemma load_storedOf (r : Registry) : loadRegistry (storedOf r) = r := rfl

lemma reserveSeq_eq : ∀ (n : Nat) (f : FileState),
    reserveSeq f n = (loadRegistry f).next_port + n := by
  intro n
  induction n with
  | zero =>
    intro f
    simp [reserveSeq, reservePortF]
  | succ n ih =>
    intro f
    rw [reserveSeq, ih]
    simp [reservePortF, storedOf, loadRegistry]
    omega

/-- C3: successive `reserve_port` calls — each of which reloads the
file the previous call saved — return strictly increasing values with
no repeats. -/
theorem C3_reserve_port_strictly_increasing (f : FileState) (i j : Nat) (h : i < j) :
    reserveSeq f i < reserveSeq f j := by
  rw [reserveSeq_eq, reserveSeq_eq]
  omega

/-- Witness for C3 on a fresh registry file. -/
theorem C3_witness : 0 < 1 ∧ reserveSeq .missing 0 < reserveSeq .missing 1 :=
  ⟨by decide, C3_reserve_port_strictly_increasing .missing 0 1 (by decide)⟩

/-- C6: loading a missing or unparseable registry file yields the empty
registry with the default starting port (8001) instead of raising, and
every registry operation on such a file behaves as on the empty
registry. -/
theorem C6_load_registry_self_heals :
    (loadRegistry .missing = ⟨[], DEFAULT_PORT_START⟩)
    ∧ (∀ junk : String, loadRegistry (.corrupt junk) = ⟨[], DEFAULT_PORT_START⟩)
    ∧ DEFAULT_PORT_START = 8001
    ∧ (∀ (junk aid : String), getAgentReg aid (.corrupt junk) = none)
    ∧ (∀ (junk aid : String) (u : Dict), updateAgentW aid u (.corrupt junk) = (false, none))
    ∧ (∀ junk aid : String, removeAgentW aid (.corrupt junk) = (false, none))
    ∧ (∀ junk : String, reservePortF (.corrupt junk) = (DEFAULT_PORT_START, storedOf ⟨[], DEFAULT_PORT_START + 1⟩))
    ∧ (∀ aid : String, getAgentReg aid .missing = none)
    ∧ (reservePortF .missing = (DEFAULT_PORT_START, storedOf ⟨[], DEFAULT_PORT_START + 1⟩)) :=
  ⟨rfl, fun _ => rfl, rfl, fun _ _ => rfl, fun _ _ _ => rfl, fun _ _ => rfl,
   fun _ => rfl, fun _ => rfl, rfl⟩

/-! ## Metrics claim C1 -/

lemma p95_code_eq_floor (ds : List Int) :
    (if 0 ≤ ((19 * ds.length / 20 : Nat) : Int) - 1 ∧ ds.mergeSort (fun a b => a ≤ b) ≠ []
     then (ds.mergeSort (fun a b => a ≤ b)).getD (Int.toNat (((19 * ds.length / 20 : Nat) : Int) - 1)) 0
     else 0) = p95FloorSpec ds := by
  rw [p95FloorSpec]
  by_cases hc : 1 ≤ 19 * ds.length / 20
  · have hL : 2 ≤ ds.length := by omega
    have hne : ds.mergeSort (fun a b => a ≤ b) ≠ [] := by
      intro hnil
      have hz := congrArg List.length hnil
      rw [List.length_mergeSort] at hz
      simp only [List.length_nil] at hz
      omega
    have h0 : 0 ≤ ((19 * ds.length / 20 : Nat) : Int) - 1 := by omega
    rw [if_pos hc, if_pos ⟨h0, hne⟩]
    congr 1
    omega
  · have hnot : ¬ (0 ≤ ((19 * ds.length / 20 : Nat) : Int) - 1 ∧ ds.mergeSort (fun a b => a ≤ b) ≠ []) := by
      rintro ⟨h0, -⟩
      omega
    rw [if_neg hc, if_neg hnot]

unseal List.merge List.mergeSort

/-- C1 counterexample: for recorded durations [10, 20, 30, 40, 50] the
code reports p95 = 40 (index `int(5 * 0.95) - 1 = 3` of the sorted
list), not the claimed 50 (index `ceil(5 * 0.95) - 1 = 4`). -/
theorem C1_counterexample :
    (getMetrics calls5).p95ResponseTime = 40
    ∧ p95CeilSpec (calls5.filterMap (fun c => c.duration_ms)) = 50
    ∧ (getMetrics calls5).p95ResponseTime ≠ p95CeilSpec (calls5.filterMap (fun c => c.duration_ms)) :=
  ⟨by decide, by decide, by decide⟩

/-- C1 (amended): `get_metrics` reports p95ResponseTime equal to the
element of the sorted duration list at index `int(0.95 * n) - 1`
(floor, not ceil) whenever that index is nonnegative, and 0 otherwise —
in particular 0 when the list is empty; for recorded durations
[10, 20, 30, 40, 50] it reports avg = 30, min = 10, max = 50 and
p95 = 40 (index 3). -/
theorem C1_p95_floor_index :
    (∀ calls : List CallRec,
        (getMetrics calls).p95ResponseTime = p95FloorSpec (calls.filterMap (fun c => c.duration_ms)))
    ∧ (getMetrics []).p95ResponseTime = 0
    ∧ (getMetrics calls5).avgResponseTime = 30
    ∧ (getMetrics calls5).minResponseTime = 10
    ∧ (getMetrics calls5).maxResponseTime = 50
    ∧ (getMetrics calls5).p95ResponseTime = 40 :=
  ⟨fun calls => by
      simp only [getMetrics]
      exact p95_code_eq_floor (calls.filterMap (fun c => c.duration_ms)),
   rfl, by decide, by decide, by decide, by decide⟩

/-! ## Dict and update lemmas, claim C10 -/

lemma dictGet_eq_none (k : String) (d : Dict) :
    dictGet k d = none ↔ ∀ p ∈ d, p.1 ≠ k := by
  simp [dictGet, List.find?_eq_none]

lemma mem_dictKeys (k : String) (d : Dict) :
    k ∈ dictKeys d ↔ ∃ p ∈ d, p.1 = k := by
  simp [dictKeys, List.mem_map]

lemma mergeKey_comp (u : Dict) (k : String) :
    ((fun p : String × Value => p.1 == k) ∘ (fun p : String × Value =>
      match dictGet p.1 u with
      | some v => (p.1, v)
      | none => p)) = (fun p : String × Value => p.1 == k) := by
  funext p
  cases hg : dictGet p.1 u <;> simp [Function.comp, hg]

lemma find?_filter_of_imp {α : Type} (p q : α → Bool) (l : List α)
    (h : ∀ x, p x = true → q x = true) :
    List.find? p (l.filter q) = List.find? p l := by
  induction l with
  | nil => rfl
  | cons x l ih =>
    by_cases hq : q x = true
    · rw [List.filter_cons_of_pos hq]
      by_cases hp : p x = true
      · rw [List.find?_cons_of_pos _ hp, List.find?_cons_of_pos _ hp]
      · rw [List.find?_cons_of_neg _ hp, List.find?_cons_of_neg _ hp]
        exact ih
    · have hp : ¬ p x = true := fun hpx => hq (h x hpx)
      rw [List.filter_cons_of_neg (by simpa using hq), ih, List.find?_cons_of_neg _ hp]

lemma dictGet_merge_not_mem (a u : Dict) (k : String) (hk : k ∉ dictKeys u) :
    dictGet k (dictMerge a u) = dictGet k a := by
  have hku : ∀ p ∈ u, p.1 ≠ k := by
    intro p hp hne
    exact hk ((mem_dictKeys k u).mpr ⟨p, hp, hne⟩)
  rw [dictGet, dictMerge, List.find?_append, List.find?_map, mergeKey_comp]
  have hfy : List.find? (fun p : String × Value => p.1 == k)
      (u.filter (fun p => !((dictKeys a).contains p.1))) = none := by
    rw [List.find?_eq_none]
    intro x hx hbeq
    exact hku x (List.mem_filter.mp hx).1 (by simpa using hbeq)
  rw [hfy]
  cases hfa : List.find? (fun p : String × Value => p.1 == k) a with
  | none => simp [dictGet, hfa]
  | some x =>
    have hx1 : x.1 = k := by simpa using List.find?_some hfa
    have hgu : dictGet x.1 u = none := by
      rw [dictGet_eq_none]
      intro p hp hne
      exact hku p hp (hne.trans hx1)
    rw [dictGet] at hgu
    simp [dictGet, hfa, hgu]

lemma dictGet_merge_mem (a u : Dict) (k : String) (hk : k ∈ dictKeys u) :
    dictGet k (dictMerge a u) = dictGet k u := by
  obtain ⟨p0, hp0, hp0k⟩ := (mem_dictKeys k u).mp hk
  have hfs : (List.find? (fun p : String × Value => p.1 == k) u).isSome = true :=
    List.find?_isSome.mpr ⟨p0, hp0, by simpa using hp0k⟩
  obtain ⟨x, hx⟩ := Option.isSome_iff_exists.mp hfs
  have hv : dictGet k u = some x.2 := by rw [dictGet, hx]; rfl
  set v := x.2 with hvdef
  rw [dictGet, dictMerge, List.find?_append, List.find?_map, mergeKey_comp]
  cases hfa : List.find? (fun p : String × Value => p.1 == k) a with
  | some x =>
    have hx1 : x.1 = k := by simpa using List.find?_some hfa
    have hgx : dictGet x.1 u = some v := by rw [hx1, hv]
    simp [hfa, hgx, hv]
  | none =>
    have hka : ∀ p ∈ a, p.1 ≠ k := by
      intro p hp hne
      have := List.find?_eq_none.mp hfa p hp
      simp [hne] at this
    have hfilter : List.find? (fun p : String × Value => p.1 == k)
        (u.filter (fun p => !((dictKeys a).contains p.1)))
        = List.find? (fun p : String × Value => p.1 == k) u := by
      apply find?_filter_of_imp
      intro x hx
      have hx1 : x.1 = k := by simpa using hx
      have : x.1 ∉ dictKeys a := by
        rw [hx1]
        intro hmem
        obtain ⟨p, hp, hpk⟩ := (mem_dictKeys k a).mp hmem
        exact hka p hp hpk
      simpa using this
    show Option.map (fun p : String × Value => p.2)
        (List.find? (fun p : String × Value => p.1 == k)
          (u.filter (fun p => !((dictKeys a).contains p.1)))) = dictGet k u
    rw [hfilter, dictGet]

lemma updateAgentsList_eq_none (aid : String) (u : Dict) (l : List Dict) :
    updateAgentsList aid u l = none ↔ ∀ a ∈ l, isIdMatch a aid = false := by
  induction l with
  | nil => simp [updateAgentsList]
  | cons a rest ih =>
    rw [updateAgentsList]
    cases hm : isIdMatch a aid with
    | true => simp [hm]
    | false => simp [hm, ih]

lemma updateAgentsList_eq_some (aid : String) (u : Dict) :
    ∀ (l l' : List Dict), updateAgentsList aid u l = some l' →
      ∃ pre a post, l = pre ++ a :: post ∧ l' = pre ++ dictMerge a u :: post
        ∧ isIdMatch a aid = true ∧ ∀ b ∈ pre, isIdMatch b aid = false := by
  intro l
  induction l with
  | nil =>
    intro l' h
    exact absurd h (by simp [updateAgentsList])
  | cons a rest ih =>
    intro l' h
    rw [updateAgentsList] at h
    cases hm : isIdMatch a aid with
    | true =>
      rw [hm] at h
      simp only [if_true] at h
      obtain rfl := Option.some.inj h
      exact ⟨[], a, rest, rfl, rfl, hm, fun b hb => absurd hb (List.not_mem_nil b)⟩
    | false =>
      rw [hm] at h
      simp only [Bool.false_eq_true, if_false] at h
      obtain ⟨l'', hrest, rfl⟩ : ∃ l'', updateAgentsList aid u rest = some l'' ∧ l' = a :: l'' := by
        cases hu : updateAgentsList aid u rest with
        | none =>
          rw [hu] at h
          simp at h
        | some x =>
          rw [hu] at h
          simp at h
          exact ⟨x, rfl, h.symm⟩
      obtain ⟨pre, b, post, h1, h2, h3, h4⟩ := ih _ hrest
      refine ⟨a :: pre, b, post, by rw [List.cons_append, h1], by rw [List.cons_append, h2], h3, ?_⟩
      intro c hc
      rcases List.mem_cons.mp hc with rfl | hc2
      · exact hm
      · exact h4 _ hc2

/-- C10: `update_agent` returns True iff some record's id equals
`agent_id`; when none does, the backing file is not written; when one
does, only the first such record is replaced by the merge — its keys
outside `updates` keep their values, keys in `updates` take the update
values, every other record and `next_port` are unchanged. -/
theorem C10_update_agent_frame (f : FileState) (aid : String) (u : Dict) :
    ((updateAgentW aid u f).1 = true ↔ ∃ a ∈ (loadRegistry f).agents, isIdMatch a aid = true)
    ∧ ((updateAgentW aid u f).1 = false → (updateAgentW aid u f).2 = none)
    ∧ (∀ d : Registry, (updateAgentW aid u f).2 = some d →
        d.next_port = (loadRegistry f).next_port
        ∧ ∃ pre a post,
            (loadRegistry f).agents = pre ++ a :: post
            ∧ d.agents = pre ++ dictMerge a u :: post
            ∧ isIdMatch a aid = true
            ∧ (∀ b ∈ pre, isIdMatch b aid = false)
            ∧ (∀ k : String, k ∉ dictKeys u → dictGet k (dictMerge a u) = dictGet k a)
            ∧ (∀ k ∈ dictKeys u, dictGet k (dictMerge a u) = dictGet k u)) := by
  simp only [updateAgentW]
  cases hu : updateAgentsList aid u (loadRegistry f).agents with
  | none =>
    refine ⟨?_, fun _ => rfl, fun d hd => by simp at hd⟩
    constructor
    · intro hft
      exact absurd hft (by simp)
    · rintro ⟨a, ha, hm⟩
      exfalso
      have hfalse := (updateAgentsList_eq_none aid u _).mp hu a ha
      rw [hm] at hfalse
      exact Bool.noConfusion hfalse
  | some ag =>
    obtain ⟨pre, a, post, h1, h2, h3, h4⟩ := updateAgentsList_eq_some aid u _ _ hu
    refine ⟨?_, by intro hfalse; simp at hfalse, ?_⟩
    · simp only [true_iff]
      exact ⟨a, by rw [h1]; exact List.mem_append_right _ (List.mem_cons_self _ _), h3⟩
    · intro d hd
      obtain rfl := (Option.some.inj hd).symm
      refine ⟨rfl, pre, a, post, h1, h2, h3, h4, ?_, ?_⟩
      · intro k hk
        exact dictGet_merge_not_mem a u k hk
      · intro k hk
        exact dictGet_merge_mem a u k hk

/-- Witness for C10: updating the status of agent `"a"` in the concrete
registry succeeds; updating an unknown id performs no write. -/
theorem C10_witness :
    (updateAgentW "a" [("status", Value.str "stopped")] regA).1 = true
    ∧ (updateAgentW "zzz" [("status", Value.str "stopped")] regA).2 = none := by
  constructor
  · apply (C10_update_agent_frame regA "a" [("status", Value.str "stopped")]).1.mpr
    refine ⟨recA, ?_, by decide⟩
    show recA ∈ [recA]
    exact List.mem_singleton.mpr rfl
  · exact (C10_update_agent_frame regA "zzz" [("status", Value.str "stopped")]).2.1 (by decide)

/-! ## Stop and delete lemmas, claims C7, C8 -/

lemma find?_append_of_none {α : Type} (p : α → Bool) (l₁ l₂ : List α)
    (h : List.find? p l₁ = none) :
    List.find? p (l₁ ++ l₂) = List.find? p l₂ := by
  rw [List.find?_append, h, Option.none_or]

lemma update_status_effect (f : FileState) (aid : String) (v : Value)
    (h : hasAgentReg aid f) :
    statusOfReg aid (applyWrite (updateAgentW aid [("status", v)] f).2 f) = some v
    ∧ hasAgentReg aid (applyWrite (updateAgentW aid [("status", v)] f).2 f) := by
  cases hu : updateAgentsList aid [("status", v)] (loadRegistry f).agents with
  | none =>
    exfalso
    obtain ⟨a, ha, hm⟩ := h
    have hfalse := (updateAgentsList_eq_none _ _ _).mp hu a ha
    rw [hm] at hfalse
    exact Bool.noConfusion hfalse
  | some ag =>
    obtain ⟨pre, a, post, h1, h2, h3, h4⟩ := updateAgentsList_eq_some _ _ _ _ hu
    have hw : (updateAgentW aid [("status", v)] f).2
        = some ⟨ag, (loadRegistry f).next_port⟩ := by
      simp only [updateAgentW]
      rw [hu]
    rw [hw]
    subst h2
    have hid : isIdMatch (dictMerge a [("status", v)]) aid = true := by
      have hgid : dictGet "id" (dictMerge a [("status", v)]) = dictGet "id" a :=
        dictGet_merge_not_mem a _ "id" (by simp [dictKeys])
      rw [isIdMatch, hgid]
      rw [isIdMatch] at h3
      exact h3
    have hpre : List.find? (fun b => isIdMatch b aid) pre = none := by
      rw [List.find?_eq_none]
      intro x hx
      rw [h4 x hx]
      simp
    have hget : getAgentReg aid
        (applyWrite (some ⟨pre ++ dictMerge a [("status", v)] :: post, (loadRegistry f).next_port⟩) f)
        = some (dictMerge a [("status", v)]) := by
      show List.find? (fun b => isIdMatch b aid) (pre ++ dictMerge a [("status", v)] :: post)
          = some (dictMerge a [("status", v)])
      rw [find?_append_of_none _ _ _ hpre]
      exact List.find?_cons_of_pos _ hid
    constructor
    · rw [statusOfReg, hget]
      show dictGet "status" (dictMerge a [("status", v)]) = some v
      rw [dictGet_merge_mem a _ "status" (by simp [dictKeys])]
      rfl
    · refine ⟨dictMerge a [("status", v)], ?_, hid⟩
      show dictMerge a [("status", v)] ∈ pre ++ dictMerge a [("status", v)] :: post
      exact List.mem_append_right _ (List.mem_cons_self _ _)

lemma lookup_filter_ne {α : Type} (aid : String) (l : List (String × α)) :
    (l.filter (fun p => !(p.1 == aid))).lookup aid = none := by
  induction l with
  | nil => rfl
  | cons x l ih =>
    obtain ⟨k, v⟩ := x
    by_cases hk : k = aid
    · rw [List.filter_cons_of_neg (by simp [hk])]
      exact ih
    · rw [List.filter_cons_of_pos (by simp [hk])]
      have hbeq : (aid == k) = false := beq_eq_false_iff_ne.mpr (Ne.symm hk)
      simp only [List.lookup, hbeq]
      exact ih

lemma not_mem_filter_self (aid : String) (l : List String) :
    aid ∉ l.filter (fun d => !(d == aid)) := by
  intro hmem
  have h2 := (List.mem_filter.mp hmem).2
  simp at h2

lemma find?_id_filter_none (aid : String) (l : List Dict) :
    List.find? (fun a => isIdMatch a aid) (l.filter (fun a => !(isIdMatch a aid))) = none := by
  rw [List.find?_eq_none]
  intro x hx
  have hxf := (List.mem_filter.mp hx).2
  simp at hxf
  simp [hxf]

lemma removeAgentW_of_has (f : FileState) (aid : String) (h : hasAgentReg aid f) :
    removeAgentW aid f
      = (true, some ⟨(loadRegistry f).agents.filter (fun a => !(isIdMatch a aid)),
                     (loadRegistry f).next_port⟩) := by
  have hlt : ((loadRegistry f).agents.filter (fun a => !(isIdMatch a aid))).length
      < (loadRegistry f).agents.length := by
    apply List.length_filter_lt_length_iff_exists.mpr
    obtain ⟨a, ha, hm⟩ := h
    exact ⟨a, ha, by simp [hm]⟩
  simp only [removeAgentW]
  rw [if_pos hlt]

lemma removeAgentW_of_not_has (f : FileState) (aid : String) (h : ¬ hasAgentReg aid f) :
    removeAgentW aid f = (false, none) := by
  have hnlt : ¬ ((loadRegistry f).agents.filter (fun a => !(isIdMatch a aid))).length
      < (loadRegistry f).agents.length := by
    intro hlt
    obtain ⟨x, hx, hnx⟩ := List.length_filter_lt_length_iff_exists.mp hlt
    exact h ⟨x, hx, by simpa using hnx⟩
  simp only [removeAgentW]
  rw [if_neg hnlt]

lemma apiStop_ok (st : SrvState) (aid : String) (h : hasAgentReg aid st.regFile) :
    (∃ p, (apiStopAgent aid st).1 = Except.ok p)
    ∧ statusOfReg aid (apiStopAgent aid st).2.regFile = some (.str "stopped")
    ∧ hasAgentReg aid (apiStopAgent aid st).2.regFile
    ∧ (apiStopAgent aid st).2.procs.lookup aid = none := by
  cases hpl : st.procs.lookup aid with
  | none =>
    have hfs : (List.find? (fun a => isIdMatch a aid) (loadRegistry st.regFile).agents).isSome = true :=
      List.find?_isSome.mpr h
    obtain ⟨a0, ha0⟩ := Option.isSome_iff_exists.mp hfs
    have hga : getAgentReg aid st.regFile = some a0 := ha0
    simp only [apiStopAgent, hpl, hga]
    refine ⟨⟨_, rfl⟩, ?_, ?_, ?_⟩
    · exact (update_status_effect st.regFile aid _ h).1
    · exact (update_status_effect st.regFile aid _ h).2
    · trivial
  | some info =>
    simp only [apiStopAgent, hpl]
    refine ⟨⟨_, rfl⟩, ?_, ?_, ?_⟩
    · exact (update_status_effect st.regFile aid _ h).1
    · exact (update_status_effect st.regFile aid _ h).2
    · exact lookup_filter_ne aid st.procs

/-- C7: for every agent with a registry record, `stop` twice in a row
returns a payload (never an error) on both calls — also when no live
process exists — and after each call the registry status is
`"stopped"`. -/
theorem C7_stop_idempotent (st : SrvState) (aid : String) (h : hasAgentReg aid st.regFile) :
    (∃ p, (apiStopAgent aid st).1 = Except.ok p)
    ∧ statusOfReg aid (apiStopAgent aid st).2.regFile = some (.str "stopped")
    ∧ (∃ p, (apiStopAgent aid (apiStopAgent aid st).2).1 = Except.ok p)
    ∧ statusOfReg aid (apiStopAgent aid (apiStopAgent aid st).2).2.regFile = some (.str "stopped") := by
  obtain ⟨h1ok, h1status, h1has, h1procs⟩ := apiStop_ok st aid h
  obtain ⟨h2ok, h2status, _, _⟩ := apiStop_ok (apiStopAgent aid st).2 aid h1has
  exact ⟨h1ok, h1status, h2ok, h2status⟩

/-- Witness for C7 on a process-less agent with a registry record. -/
theorem C7_witness :
    hasAgentReg "a" stNoProc.regFile
    ∧ statusOfReg "a" (apiStopAgent "a" stNoProc).2.regFile = some (.str "stopped")
    ∧ statusOfReg "a" (apiStopAgent "a" (apiStopAgent "a" stNoProc).2).2.regFile = some (.str "stopped") :=
  ⟨by decide,
   (C7_stop_idempotent stNoProc "a" (by decide)).2.1,
   (C7_stop_idempotent stNoProc "a" (by decide)).2.2.2⟩

lemma popProcIfLive_fields (aid : String) (st : SrvState) :
    (popProcIfLive aid st).regFile = st.regFile
    ∧ (popProcIfLive aid st).metricsFiles = st.metricsFiles
    ∧ (popProcIfLive aid st).logFiles = st.logFiles
    ∧ (popProcIfLive aid st).agentDirs = st.agentDirs
    ∧ (popProcIfLive aid st).ready = st.ready := by
  unfold popProcIfLive
  split <;> exact ⟨rfl, rfl, rfl, rfl, rfl⟩

lemma apiDelete_of_has (st : SrvState) (aid : String) (h : hasAgentReg aid st.regFile) :
    apiDeleteAgent aid st =
      (Except.ok [("message", "Agent removed")],
       { popProcIfLive aid st with
           regFile := storedOf ⟨(loadRegistry st.regFile).agents.filter (fun a => !(isIdMatch a aid)),
                                (loadRegistry st.regFile).next_port⟩,
           agentDirs := (popProcIfLive aid st).agentDirs.filter (fun d => !(d == aid)),
           ready := (popProcIfLive aid st).ready.filter (fun x => !(x == aid)),
           metricsFiles := (popProcIfLive aid st).metricsFiles.filter (fun p => !(p.1 == aid)),
           logFiles := (popProcIfLive aid st).logFiles.filter (fun p => !(p.1 == aid)) }) := by
  obtain ⟨hreg, hmet, hlog, hdirs, hready⟩ := popProcIfLive_fields aid st
  have hrw : removeAgentW aid (popProcIfLive aid st).regFile
      = (true, some ⟨(loadRegistry st.regFile).agents.filter (fun a => !(isIdMatch a aid)),
                     (loadRegistry st.regFile).next_port⟩) := by
    rw [hreg]
    exact removeAgentW_of_has st.regFile aid h
  simp only [apiDeleteAgent]
  rw [hrw]
  rfl

lemma apiDelete_of_not_has (st : SrvState) (aid : String) (h : ¬ hasAgentReg aid st.regFile) :
    (apiDeleteAgent aid st).1 = Except.error (Abort.httpExc 404 "Agent not found") := by
  obtain ⟨hreg, hmet, hlog, hdirs, hready⟩ := popProcIfLive_fields aid st
  have hrw : removeAgentW aid (popProcIfLive aid st).regFile = (false, none) := by
    rw [hreg]
    exact removeAgentW_of_not_has st.regFile aid h
  simp only [apiDeleteAgent]
  rw [hrw]
  rfl

/-- C8: deleting an agent that has a registry record succeeds and
removes its registry record, metrics file, log file and directory; a
second delete of the same id reports 404 Agent not found instead of
erroring on file removal. -/
theorem C8_delete_idempotent (st : SrvState) (aid : String) (h : hasAgentReg aid st.regFile) :
    (apiDeleteAgent aid st).1 = Except.ok [("message", "Agent removed")]
    ∧ getAgentReg aid (apiDeleteAgent aid st).2.regFile = none
    ∧ (apiDeleteAgent aid st).2.metricsFiles.lookup aid = none
    ∧ (apiDeleteAgent aid st).2.logFiles.lookup aid = none
    ∧ aid ∉ (apiDeleteAgent aid st).2.agentDirs
    ∧ (apiDeleteAgent aid (apiDeleteAgent aid st).2).1
        = Except.error (Abort.httpExc 404 "Agent not found") := by
  rw [apiDelete_of_has st aid h]
  refine ⟨rfl, ?_, ?_, ?_, ?_, ?_⟩
  · show List.find? (fun a => isIdMatch a aid)
        ((loadRegistry st.regFile).agents.filter (fun a => !(isIdMatch a aid))) = none
    exact find?_id_filter_none aid _
  · show ((popProcIfLive aid st).metricsFiles.filter (fun p => !(p.1 == aid))).lookup aid = none
    exact lookup_filter_ne aid _
  · show ((popProcIfLive aid st).logFiles.filter (fun p => !(p.1 == aid))).lookup aid = none
    exact lookup_filter_ne aid _
  · show aid ∉ (popProcIfLive aid st).agentDirs.filter (fun d => !(d == aid))
    exact not_mem_filter_self aid _
  · apply apiDelete_of_not_has
    rintro ⟨a, ha, hm⟩
    have ha2 : a ∈ (loadRegistry st.regFile).agents.filter (fun a => !(isIdMatch a aid)) := ha
    have hfa := (List.mem_filter.mp ha2).2
    rw [hm] at hfa
    simp at hfa

/-- Witness for C8 on the concrete registry with agent `"a"`. -/
theorem C8_witness :
    hasAgentReg "a" stNoProc.regFile
    ∧ (apiDeleteAgent "a" stNoProc).1 = Except.ok [("message", "Agent removed")]
    ∧ (apiDeleteAgent "a" (apiDeleteAgent "a" stNoProc).2).1
        = Except.error (Abort.httpExc 404 "Agent not found") :=
  ⟨by decide,
   (C8_delete_idempotent stNoProc "a" (by decide)).1,
   (C8_delete_idempotent stNoProc "a" (by decide)).2.2.2.2.2⟩

/-! ## Proxy claims C4, C5 -/

/-- C4: at a live agent with a known port, a transport failure yields
the structured result `{status := 0, duration, body}`, is recorded in
metrics with status 0 (success false), and is logged at error level
with the raw exception text — but the claim that every path returns a
structured result is false: an upstream HTTP error whose body parses to
a non-object JSON value (here `[]`) raises an uncaught `AttributeError`
from `out_body.get(...)` inside the `except HTTPError` handler. -/
theorem C4_transport_ok_but_uncaught_on_nondict :
    (apiTestAgent "a" req0 (.exc "Connection refused" 7) "t" stLive).1
      = Except.ok ⟨0, 7, Value.obj [("error", Value.str "Connection refused")]⟩
    ∧ (((apiTestAgent "a" req0 (.exc "Connection refused" 7) "t" stLive).2.metricsFiles.lookup "a").map
        (fun d => d.calls.map (fun c => (c.status, c.success))))
      = some [((0 : Int), false)]
    ∧ ((((apiTestAgent "a" req0 (.exc "Connection refused" 7) "t" stLive).2.logFiles.lookup "a").getD []).map
        (fun e => (e.level, e.message)))
      = [("error", "Request failed: Connection refused")]
    ∧ (apiTestAgent "a" req0
        (.httpErr 500 5 (some (.arr [])) "HTTP Error 500: Internal Server Error") "t" stLive).1
      = Except.error (Abort.uncaught "AttributeError") :=
  ⟨rfl, rfl, rfl, rfl⟩

/-- C5 counterexample: with no live process tracked for the agent, the
proxy raises `HTTPException(400)` — the refusal is not returned as a
structured `{status, duration, body}` result — and nothing is recorded:
the whole server state, metrics and log files included, is unchanged. -/
theorem C5_counterexample :
    (apiTestAgent "a" req0 (.exc "boom" 1) "t" stNoProc).1
      = Except.error (Abort.httpExc 400 "Agent is not running. Deploy it first.")
    ∧ (apiTestAgent "a" req0 (.exc "boom" 1) "t" stNoProc).2 = stNoProc
    ∧ apiTestAgent "a" req0 (.exc "boom" 1) "t" stNoProc
        = apiTestAgent "a" req0 (.ok 200 1 "" none) "t" stNoProc :=
  ⟨rfl, rfl, rfl⟩

/-- C5 (amended): if the target agent is not tracked as live, or has no
(truthy) port, the proxy refuses before any network I/O — the result is
an `HTTPException` with client-error status 400 (not a structured
result), it is independent of the upstream outcome and clock, and
nothing is recorded in Metrics or Logs (the state is unchanged). -/
theorem C5_refusal_before_io (st : SrvState) (aid : String) (req : RunAgentRequest)
    (out out' : UpstreamOutcome) (now now' : String)
    (h : st.procs.lookup aid = none
         ∨ ∃ info, st.procs.lookup aid = some info ∧ (info.port = none ∨ info.port = some 0)) :
    (∃ d, (apiTestAgent aid req out now st).1 = Except.error (Abort.httpExc 400 d))
    ∧ (apiTestAgent aid req out now st).2 = st
    ∧ apiTestAgent aid req out now st = apiTestAgent aid req out' now' st := by
  rcases h with hnone | ⟨info, hsome, hport⟩
  · simp only [apiTestAgent, hnone]
    exact ⟨⟨_, rfl⟩, by trivial, by trivial⟩
  · rcases hport with hp | hp
    · simp only [apiTestAgent, hsome, hp]
      exact ⟨⟨_, rfl⟩, by trivial, by trivial⟩
    · simp only [apiTestAgent, hsome, hp]
      exact ⟨⟨_, rfl⟩, by trivial, by trivial⟩

/-- Witness for C5 amended at an untracked agent id. -/
theorem C5_witness :
    stNoProc.procs.lookup "b" = none
    ∧ (apiTestAgent "b" req0 (.exc "x" 2) "t" stNoProc).2 = stNoProc :=
  ⟨rfl,
   (C5_refusal_before_io stNoProc "b" req0 (.exc "x" 2) (.exc "x" 2) "t" "t" (Or.inl rfl)).2.1⟩

end FuseAI